import Mathlib

/-!
Shallow embedding of the video_summary_tool repository (src/utils.py and
src/media_processing.py) together with theorems checking the claims of the
natural-language specification against it.

The embedding follows the Python source line by line:
* JSON-like API response items become the inductive `JVal`;
* Python exceptions become the inductive `PyExc`; fallible code returns
  `Except PyExc _`;
* the YouTube comment-listing API (`youtube.commentThreads().list(...)`)
  becomes an abstract `CommentSource : Option String → Except PyExc Page`;
* the `while` pagination loop of `_fetch_comments_with_token` becomes the
  fuel-indexed recursion `fetchLoop`, which also counts how many source
  calls (`execute()` invocations) were made;
* the Streamlit session-state cell `st.session_state.comments_cache`
  becomes an explicit `Option CacheEntry` threaded through
  `get_cached_comments`.
-/

namespace VideoSummaryTool

/-- JSON-like values, as returned by the comment-listing API.  Python dicts
become association lists; only the shapes the code inspects are needed. -/
inductive JVal where
  | dict (entries : List (String × JVal))
  | str (s : String)
  | num (n : Nat)
  | null

/-- Python exceptions raised (or caught) by the embedded code. -/
inductive PyExc where
  | keyError (k : String)
  | typeError (msg : String)
  | valueError (msg : String)
  | runtimeError (msg : String)
  | transcriptsDisabled
  | noTranscriptFound
  | videoUnavailable
  | otherError (msg : String)

/-- `isinstance(s, dict)`. -/
def JVal.isDict : JVal → Bool
  | .dict _ => true
  | _ => false

/-- Python subscription `obj[key]`: raises `KeyError` when the key is
missing and `TypeError` when the value is not a dict. -/
def JVal.index : JVal → String → Except PyExc JVal
  | .dict es, k =>
    match es.lookup k with
    | some v => .ok v
    | none => .error (.keyError k)
  | _, _ => .error (.typeError "object is not subscriptable")

/-- Python `dict.get(key)`: `None` when the key is missing. -/
def JVal.get : JVal → String → Option JVal
  | .dict es, k => es.lookup k
  | _, _ => none

/-- Python `dict.get(key, default)`. -/
def JVal.getD (j : JVal) (k : String) (d : JVal) : JVal :=
  (j.get k).getD d

/-- One comment record, with exactly the fields built by the per-item
mapping in `_fetch_comments_with_token` (src/utils.py lines 195-201). -/
structure Comment where
  id : Option JVal
  text : JVal
  author : Option JVal
  published_at : Option JVal
  like_count : JVal

/-- The per-item mapping of `_fetch_comments_with_token`
(src/utils.py lines 194-201): first the subscription chain
`item["snippet"]["topLevelComment"]["snippet"]` (which can raise), then a
record whose leaf fields fall back to defaults via `.get` and
`isinstance(s, dict)` checks. -/
def mapItem (item : JVal) : Except PyExc Comment :=
  match item.index "snippet" with
  | .error e => .error e
  | .ok sn =>
    match sn.index "topLevelComment" with
    | .error e => .error e
    | .ok tlc =>
      match tlc.index "snippet" with
      | .error e => .error e
      | .ok s =>
        .ok
          { id := item.get "id"
            text := if s.isDict then s.getD "textDisplay" (.str "") else .str ""
            author := if s.isDict then s.get "authorDisplayName" else none
            published_at := if s.isDict then s.get "publishedAt" else none
            like_count := if s.isDict then s.getD "likeCount" (.num 0) else .num 0 }

/-- One page of the comment-listing API response: the `items` list and the
optional `nextPageToken` field. -/
structure Page where
  items : List JVal
  nextPageToken : Option String

/-- The external comment-listing API: maps a page token to a response page
or a raised error.  It is a pure function: the same token yields the same
response within a session. -/
def CommentSource : Type := Option String → Except PyExc Page

/-- Python truthiness test `if not next_page_token:` on an optional
string — true for `None` and for the empty string. -/
def tokenFalsy : Option String → Bool
  | none => true
  | some s => s.isEmpty

/-- The inner `for item in resp.get("items", []):` loop (src/utils.py
lines 193-203): map each item, append, and break as soon as the
accumulated count reaches `maxC`. -/
def appendItems (maxC : Nat) : List Comment → List JVal → Except PyExc (List Comment)
  | acc, [] => .ok acc
  | acc, it :: rest =>
    match mapItem it with
    | .error e => .error e
    | .ok c =>
      if maxC ≤ (acc ++ [c]).length then .ok (acc ++ [c])
      else appendItems maxC (acc ++ [c]) rest

/-- Result of the pagination loop: normal return, a raised exception, or
fuel exhaustion (the Python loop can run forever on a source that keeps
returning empty pages with fresh tokens). -/
inductive FRes where
  | ok (comments : List Comment) (tok : Option String)
  | exc (e : PyExc)
  | spin

/-- The `while len(comments) < max_comments:` pagination loop of
`_fetch_comments_with_token` (src/utils.py lines 184-207), indexed by fuel
(a bound on the number of pages) and counting source calls in its last
argument.  Each iteration fetches a page, maps its items with
`appendItems`, then breaks when the returned token is falsy. -/
def fetchLoop (src : CommentSource) (maxC : Nat) : Nat → List Comment → Option String → Nat → FRes × Nat
  | 0, acc, tok, calls =>
    if maxC ≤ acc.length then (.ok acc tok, calls) else (.spin, calls)
  | fuel + 1, acc, tok, calls =>
    if maxC ≤ acc.length then (.ok acc tok, calls)
    else
      match src tok with
      | .error e => (.exc e, calls + 1)
      | .ok page =>
        match appendItems maxC acc page.items with
        | .error e => (.exc e, calls + 1)
        | .ok acc2 =>
          if tokenFalsy page.nextPageToken then (.ok acc2 page.nextPageToken, calls + 1)
          else fetchLoop src maxC fuel acc2 page.nextPageToken (calls + 1)

/-- `_fetch_comments_with_token(video_id, max_comments, page_token)`
(src/utils.py lines 163-209): the pagination loop started with an empty
accumulator. -/
def fetch_comments_with_token (src : CommentSource) (fuel : Nat) (maxC : Nat)
    (pageToken : Option String) : FRes × Nat :=
  fetchLoop src maxC fuel [] pageToken 0

/-- The cache entry stored in `st.session_state.comments_cache`
(src/utils.py lines 121-125 and 138-142). -/
structure CacheEntry where
  video_id : String
  comments : List Comment
  next_page_token : Option String

/-- Result of `get_cached_comments`: the returned list, a propagated
exception, or nontermination of the underlying loop. -/
inductive GRes where
  | ok (comments : List Comment)
  | exc (e : PyExc)
  | spin

/-- The fresh-fetch path of `get_cached_comments` (src/utils.py
lines 133-148): no cache or a different video. -/
def fresh_fetch (src : CommentSource) (fuel : Nat) (cache : Option CacheEntry)
    (video_id : String) (max_comments : Nat) : GRes × Option CacheEntry × Nat :=
  match fetchLoop src max_comments fuel [] none 0 with
  | (.ok comments tok, k) => (.ok comments, some ⟨video_id, comments, tok⟩, k)
  | (.exc e, k) => (.exc e, cache, k)
  | (.spin, k) => (.spin, cache, k)

/-- `get_cached_comments(video_id, max_comments)` (src/utils.py
lines 81-148), with the session-state cache passed and returned
explicitly, and the number of comment-source calls performed returned as
the last component. -/
def get_cached_comments (src : CommentSource) (fuel : Nat) (cache : Option CacheEntry)
    (video_id : String) (max_comments : Nat) : GRes × Option CacheEntry × Nat :=
  match cache with
  | some c =>
    if c.video_id = video_id then
      if max_comments ≤ c.comments.length then
        (.ok (c.comments.take max_comments), cache, 0)
      else if c.next_page_token = none ∧ 0 < c.comments.length then
        (.ok c.comments, cache, 0)
      else
        match fetchLoop src (max_comments - c.comments.length) fuel [] c.next_page_token 0 with
        | (.ok newComments tok, k) =>
          (.ok ((c.comments ++ newComments).take max_comments),
            some ⟨video_id, c.comments ++ newComments, tok⟩, k)
        | (.exc e, k) => (.exc e, cache, k)
        | (.spin, k) => (.spin, cache, k)
    else fresh_fetch src fuel cache video_id max_comments
  | none => fresh_fetch src fuel cache video_id max_comments

/-! ## Helper lemmas about the pagination loop -/

/-- A comment source is well formed when it never hands out the empty
string as a continuation token: cursors are opaque non-empty handles (the
upstream API signals exhaustion by omitting the field, i.e. `none`). -/
def goodSource (src : CommentSource) : Prop :=
  ∀ t page, src t = .ok page → page.nextPageToken ≠ some ""

/-- When the accumulated count has already reached the bound, the loop is
not entered at all. -/
theorem fetchLoop_done {src : CommentSource} {maxC fuel : Nat} {acc : List Comment}
    {tok : Option String} {calls : Nat} (h : maxC ≤ acc.length) :
    fetchLoop src maxC fuel acc tok calls = (.ok acc tok, calls) := by
  cases fuel <;> simp [fetchLoop, h]

/-- The inner item loop never accumulates beyond the bound. -/
theorem appendItems_length {maxC : Nat} :
    ∀ (items : List JVal) (acc out : List Comment), acc.length < maxC →
      appendItems maxC acc items = .ok out → out.length ≤ maxC := by
  intro items
  induction items with
  | nil =>
    intro acc out h he
    simp only [appendItems] at he
    cases he
    omega
  | cons it rest ih =>
    intro acc out h he
    simp only [appendItems] at he
    split at he
    · cases he
    · next c hm =>
      split at he
      · next hlen =>
        cases he
        simp
        omega
      · next hlen =>
        exact ih (acc ++ [c]) out (Nat.lt_of_not_le hlen) he

/-- The inner item loop only returns the empty list when it started empty
and had nothing to process. -/
theorem appendItems_ok_nil {maxC : Nat} :
    ∀ (items : List JVal) (acc : List Comment),
      appendItems maxC acc items = .ok [] → acc = [] ∧ items = [] := by
  intro items
  induction items with
  | nil =>
    intro acc he
    simp only [appendItems] at he
    cases he
    exact ⟨rfl, rfl⟩
  | cons it rest ih =>
    intro acc he
    simp only [appendItems] at he
    split at he
    · cases he
    · next c hm =>
      split at he
      · simp at he
      · rcases ih (acc ++ [c]) he with ⟨habs, -⟩
        cases acc <;> cases habs

/-- The comment list returned by the pagination loop never exceeds the
requested bound. -/
theorem fetchLoop_length {src : CommentSource} {maxC : Nat} :
    ∀ (fuel : Nat) (acc : List Comment) (tok : Option String) (calls : Nat)
      (cs : List Comment) (tokE : Option String) (k : Nat),
      acc.length ≤ maxC →
      fetchLoop src maxC fuel acc tok calls = (.ok cs tokE, k) →
      cs.length ≤ maxC := by
  intro fuel
  induction fuel with
  | zero =>
    intro acc tok calls cs tokE k hle h
    simp only [fetchLoop] at h
    by_cases hg : maxC ≤ acc.length
    · rw [if_pos hg] at h; cases h; exact hle
    · rw [if_neg hg] at h; cases h
  | succ fuel ih =>
    intro acc tok calls cs tokE k hle h
    simp only [fetchLoop] at h
    split at h
    · cases h; exact hle
    · next hg =>
      split at h
      · cases h
      · next page hs =>
        split at h
        · cases h
        · next acc2 ha =>
          have hlen2 : acc2.length ≤ maxC :=
            appendItems_length page.items acc acc2 (Nat.lt_of_not_le hg) ha
          split at h
          · cases h; exact hlen2
          · exact ih acc2 page.nextPageToken (calls + 1) cs tokE k hlen2 h

/-- The call counter never decreases. -/
theorem fetchLoop_calls_le {src : CommentSource} {maxC : Nat} :
    ∀ (fuel : Nat) (acc : List Comment) (tok : Option String) (calls : Nat)
      (res : FRes) (k : Nat),
      fetchLoop src maxC fuel acc tok calls = (res, k) → calls ≤ k := by
  intro fuel
  induction fuel with
  | zero =>
    intro acc tok calls res k h
    simp only [fetchLoop] at h
    split at h <;> (cases h; exact Nat.le_refl _)
  | succ fuel ih =>
    intro acc tok calls res k h
    simp only [fetchLoop] at h
    split at h
    · cases h; exact Nat.le_refl _
    · split at h
      · cases h; omega
      · split at h
        · cases h; omega
        · split at h
          · cases h; omega
          · exact Nat.le_trans (Nat.le_succ _) (ih _ _ _ _ _ h)

/-- A loop run that made no source call returned through the entry guard,
leaving accumulator and token untouched. -/
theorem fetchLoop_calls_eq {src : CommentSource} {maxC : Nat} :
    ∀ (fuel : Nat) (acc : List Comment) (tok : Option String) (calls : Nat)
      (cs : List Comment) (tokE : Option String),
      fetchLoop src maxC fuel acc tok calls = (.ok cs tokE, calls) →
      cs = acc ∧ tokE = tok := by
  intro fuel
  induction fuel with
  | zero =>
    intro acc tok calls cs tokE h
    simp only [fetchLoop] at h
    split at h
    · injection h with h1 h2
      injection h1 with hcs htok
      exact ⟨hcs.symm, htok.symm⟩
    · cases h
  | succ fuel ih =>
    intro acc tok calls cs tokE h
    simp only [fetchLoop] at h
    split at h
    · injection h with h1 h2
      injection h1 with hcs htok
      exact ⟨hcs.symm, htok.symm⟩
    · split at h
      · injection h with h1 h2; omega
      · split at h
        · injection h with h1 h2; omega
        · split at h
          · injection h with h1 h2; omega
          · have := fetchLoop_calls_le fuel _ _ _ _ _ h
            omega

/-- Whenever the loop actually fetched at least one page, the token it
returns is the `nextPageToken` of some source response: the stored cursor
is absent exactly when the source's last consulted page carried no
continuation token. -/
theorem fetchLoop_tok_src {src : CommentSource} {maxC : Nat} :
    ∀ (fuel : Nat) (acc : List Comment) (tok : Option String) (calls : Nat)
      (cs : List Comment) (tokE : Option String) (k : Nat),
      fetchLoop src maxC fuel acc tok calls = (.ok cs tokE, k) → calls < k →
      ∃ t page, src t = .ok page ∧ tokE = page.nextPageToken := by
  intro fuel
  induction fuel with
  | zero =>
    intro acc tok calls cs tokE k h hk
    simp only [fetchLoop] at h
    split at h
    · injection h with h1 h2; omega
    · cases h
  | succ fuel ih =>
    intro acc tok calls cs tokE k h hk
    simp only [fetchLoop] at h
    split at h
    · injection h with h1 h2; omega
    · split at h
      · cases h
      · next page hs =>
        split at h
        · cases h
        · next acc2 ha =>
          split at h
          · injection h with h1 h2
            injection h1 with hcs htok
            exact ⟨tok, page, hs, htok.symm⟩
          · have hle := fetchLoop_calls_le fuel acc2 page.nextPageToken (calls + 1) _ k h
            by_cases hk2 : calls + 1 < k
            · exact ih _ _ _ _ _ _ h hk2
            · have hkeq : k = calls + 1 := by omega
              subst hkeq
              rcases fetchLoop_calls_eq fuel _ _ _ _ _ h with ⟨-, htok⟩
              exact ⟨tok, page, hs, htok⟩

/-- For a well-formed source, a loop run started strictly below the bound
that returns a present continuation token stopped because the bound was
reached. -/
theorem fetchLoop_tok_count {src : CommentSource} (hsrc : goodSource src) {maxC : Nat} :
    ∀ (fuel : Nat) (acc : List Comment) (tok : Option String) (calls : Nat)
      (cs : List Comment) (tokE : Option String) (k : Nat),
      acc.length < maxC →
      fetchLoop src maxC fuel acc tok calls = (.ok cs tokE, k) →
      tokE ≠ none → maxC ≤ cs.length := by
  intro fuel
  induction fuel with
  | zero =>
    intro acc tok calls cs tokE k hlt h htok
    simp only [fetchLoop] at h
    split at h
    · next hg => omega
    · cases h
  | succ fuel ih =>
    intro acc tok calls cs tokE k hlt h htok
    simp only [fetchLoop] at h
    split at h
    · next hg => omega
    · split at h
      · cases h
      · next page hs =>
        split at h
        · cases h
        · next acc2 ha =>
          split at h
          · next hf =>
            injection h with h1 h2
            injection h1 with hcs htokE
            rw [← htokE] at htok
            cases htokv : page.nextPageToken with
            | none => rw [htokv] at htok; exact absurd rfl htok
            | some s =>
              rw [htokv] at hf
              simp only [tokenFalsy] at hf
              have hs0 : s = "" := (String.isEmpty_iff s).mp hf
              rw [hs0] at htokv
              exact absurd htokv (hsrc tok page hs)
          · by_cases hc : maxC ≤ acc2.length
            · rw [fetchLoop_done hc] at h
              injection h with h1 h2
              injection h1 with hcs htokE
              rw [← hcs]
              exact hc
            · exact ih acc2 page.nextPageToken (calls + 1) cs tokE k
                (Nat.lt_of_not_le hc) h htok

/-- The loop only returns an empty comment list when its accumulator was
empty to begin with. -/
theorem fetchLoop_ok_nil {src : CommentSource} {maxC : Nat} :
    ∀ (fuel : Nat) (acc : List Comment) (tok : Option String) (calls : Nat)
      (tokE : Option String) (k : Nat),
      fetchLoop src maxC fuel acc tok calls = (.ok [] tokE, k) → acc = [] := by
  intro fuel
  induction fuel with
  | zero =>
    intro acc tok calls tokE k h
    simp only [fetchLoop] at h
    split at h
    · injection h with h1 h2
      injection h1 with hcs htok
    · cases h
  | succ fuel ih =>
    intro acc tok calls tokE k h
    simp only [fetchLoop] at h
    split at h
    · injection h with h1 h2
      injection h1 with hcs htok
    · split at h
      · cases h
      · split at h
        · cases h
        · next acc2 ha =>
          split at h
          · injection h with h1 h2
            injection h1 with hcs htok
            rw [hcs] at ha
            exact (appendItems_ok_nil _ _ ha).1
          · have hacc2 : acc2 = [] := ih acc2 _ _ _ _ h
            rw [hacc2] at ha
            exact (appendItems_ok_nil _ _ ha).1

/-- Determinism of the empty walk: if one run of the loop starting from a
token found no comments at all, any other successful run from the same
token (with any positive bound and any fuel) also finds none — the source
is a pure function, so both runs visit the same chain of empty pages. -/
theorem fetchLoop_nil_det {src : CommentSource} {m1 m2 : Nat}
    (hm1 : 0 < m1) (hm2 : 0 < m2) :
    ∀ (fuel1 fuel2 : Nat) (tok : Option String) (c1 c2 : Nat)
      (tokE tokE2 : Option String) (cs2 : List Comment) (k1 k2 : Nat),
      fetchLoop src m1 fuel1 [] tok c1 = (.ok [] tokE, k1) →
      fetchLoop src m2 fuel2 [] tok c2 = (.ok cs2 tokE2, k2) →
      cs2 = [] := by
  intro fuel1
  induction fuel1 with
  | zero =>
    intro fuel2 tok c1 c2 tokE tokE2 cs2 k1 k2 h1 h2
    simp only [fetchLoop] at h1
    split at h1
    · next hg => simp at hg; omega
    · cases h1
  | succ fuel1 ih =>
    intro fuel2 tok c1 c2 tokE tokE2 cs2 k1 k2 h1 h2
    simp only [fetchLoop] at h1
    split at h1
    · next hg => simp at hg; omega
    · split at h1
      · cases h1
      · next page hs =>
        split at h1
        · cases h1
        · next acc2 ha =>
          have hacc2 : acc2 = [] := by
            split at h1
            · injection h1 with h1a h1b
              injection h1a with hcs htok
            · exact fetchLoop_ok_nil fuel1 acc2 _ _ _ _ h1
          subst hacc2
          rcases appendItems_ok_nil page.items [] ha with ⟨-, hitems⟩
          cases fuel2 with
          | zero =>
            simp only [fetchLoop] at h2
            split at h2
            · next hg2 => simp at hg2; omega
            · cases h2
          | succ fuel2 =>
            simp only [fetchLoop] at h2
            split at h2
            · next hg2 => simp at hg2; omega
            · split at h2
              · next e hs2 => rw [hs] at hs2; cases hs2
              · next page2 hs2 =>
                rw [hs] at hs2
                injection hs2 with hpage
                subst hpage
                rw [hitems] at h2
                split at h2
                · next e ha2 => simp [appendItems] at ha2
                · next acc2' ha2 =>
                  have hnil : acc2' = [] := by
                    simp only [appendItems] at ha2
                    injection ha2 with h
                    exact h.symm
                  subst hnil
                  split at h1 <;> split at h2
                  · injection h2 with h2a h2b
                    injection h2a with hcs2 htok2
                    exact hcs2.symm
                  · next hf hf2 => exact absurd hf hf2
                  · next hf hf2 => exact absurd hf2 hf
                  · exact ih fuel2 page.nextPageToken (c1 + 1) (c2 + 1)
                      tokE tokE2 cs2 k1 k2 h1 h2

/-- Invariant of the session cache: an entry holding no comments can only
carry an absent cursor.  It holds for the empty session and is preserved
by every `get_cached_comments` call with a positive count against a
well-formed source. -/
def cacheInv : Option CacheEntry → Prop
  | none => True
  | some e => e.comments = [] → e.next_page_token = none

/-- What a successful fresh fetch guarantees: the new entry is for the
requested video, the returned list is the first `n` entries of the stored
sequence, a present stored cursor means the request was fully satisfied,
and an empty stored entry means the source's walk from the start yields
nothing (and the cursor is absent). -/
theorem fresh_fetch_spec {src : CommentSource} (hsrc : goodSource src)
    {fuel : Nat} {cache : Option CacheEntry} {v : String} {n : Nat}
    {r : List Comment} {st : Option CacheEntry} {k : Nat}
    (hn : 0 < n)
    (h : fresh_fetch src fuel cache v n = (.ok r, st, k)) :
    ∃ C t, st = some ⟨v, C, t⟩ ∧ r = C.take n
      ∧ (t ≠ none → n ≤ C.length)
      ∧ (C = [] → t = none ∧ ∃ k2, fetchLoop src n fuel [] none 0 = (.ok [] none, k2)) := by
  simp only [fresh_fetch] at h
  split at h
  · next cs tok k2 hloop =>
    simp only [Prod.mk.injEq] at h
    obtain ⟨hr, hst, hk⟩ := h
    injection hr with hr
    subst hr
    subst hst
    subst hk
    have hle : cs.length ≤ n :=
      fetchLoop_length fuel [] none 0 cs tok k2 (by simp) hloop
    refine ⟨cs, tok, rfl, (List.take_of_length_le hle).symm, ?_, ?_⟩
    · intro ht
      exact fetchLoop_tok_count hsrc fuel [] none 0 cs tok k2 (by simpa using hn) hloop ht
    · intro hcs
      subst hcs
      have htok : tok = none := by
        by_contra hne
        have := fetchLoop_tok_count hsrc fuel [] none 0 [] tok k2 (by simpa using hn) hloop hne
        simp at this
        omega
      subst htok
      exact ⟨rfl, k2, hloop⟩
  · simp at h
  · simp at h

/-- What a successful `get_cached_comments` call guarantees about its
result and the state it leaves behind, for a well-formed source, a
positive requested count, and a state satisfying `cacheInv`. -/
theorem get_ok_spec {src : CommentSource} (hsrc : goodSource src)
    {fuel : Nat} {cache : Option CacheEntry} {v : String} {n : Nat}
    {r : List Comment} {st : Option CacheEntry} {k : Nat}
    (hn : 0 < n) (hinv : cacheInv cache)
    (h : get_cached_comments src fuel cache v n = (.ok r, st, k)) :
    ∃ C t, st = some ⟨v, C, t⟩ ∧ r = C.take n
      ∧ (t ≠ none → n ≤ C.length)
      ∧ (C = [] → t = none ∧ ∃ k2, fetchLoop src n fuel [] none 0 = (.ok [] none, k2)) := by
  cases cache with
  | none =>
    simp only [get_cached_comments] at h
    exact fresh_fetch_spec hsrc hn h
  | some c =>
    obtain ⟨cv, ccs, ctok⟩ := c
    simp only [get_cached_comments] at h
    by_cases hv : cv = v
    · rw [if_pos hv] at h
      subst hv
      by_cases hfull : n ≤ ccs.length
      · rw [if_pos hfull] at h
        simp only [Prod.mk.injEq] at h
        obtain ⟨hr, hst, hk⟩ := h
        injection hr with hr
        subst hr
        subst hst
        subst hk
        refine ⟨ccs, ctok, rfl, rfl, fun _ => hfull, fun hcs => ?_⟩
        subst hcs
        simp at hfull
        omega
      · rw [if_neg hfull] at h
        by_cases hstop : ctok = none ∧ 0 < ccs.length
        · rw [if_pos hstop] at h
          simp only [Prod.mk.injEq] at h
          obtain ⟨hr, hst, hk⟩ := h
          injection hr with hr
          subst hr
          subst hst
          subst hk
          refine ⟨ccs, ctok, rfl, (List.take_of_length_le ?_).symm, ?_, ?_⟩
          · omega
          · intro ht; exact absurd hstop.1 ht
          · intro hcs; rw [hcs] at hstop; simp at hstop
        · rw [if_neg hstop] at h
          split at h
          · next new tok2 k2 hloop =>
            simp only [Prod.mk.injEq] at h
            obtain ⟨hr, hst, hk⟩ := h
            injection hr with hr
            subst hr
            subst hst
            subst hk
            have hlt : ccs.length < n := Nat.lt_of_not_le hfull
            refine ⟨ccs ++ new, tok2, rfl, rfl, ?_, ?_⟩
            · intro ht
              have := fetchLoop_tok_count hsrc fuel [] ctok 0 new tok2 k2
                (by simp; omega) hloop ht
              simp
              omega
            · intro hboth
              rw [List.append_eq_nil] at hboth
              obtain ⟨hccs, hnew⟩ := hboth
              have hctok : ctok = none := hinv hccs
              subst hctok hccs hnew
              simp only [List.length_nil, Nat.sub_zero] at hloop
              have htok2 : tok2 = none := by
                by_contra hne
                have := fetchLoop_tok_count hsrc fuel [] none 0 [] tok2 k2
                  (by simpa using hn) hloop hne
                simp at this
                omega
              subst htok2
              exact ⟨rfl, k2, hloop⟩
          · simp at h
          · simp at h
    · rw [if_neg hv] at h
      exact fresh_fetch_spec hsrc hn h

/-- A call that propagates an exception leaves the stored cache exactly
as it was. -/
theorem get_exc_state {src : CommentSource} {fuel : Nat} {cache : Option CacheEntry}
    {v : String} {n : Nat} {e : PyExc} {st : Option CacheEntry} {k : Nat}
    (h : get_cached_comments src fuel cache v n = (.exc e, st, k)) : st = cache := by
  have hfresh : ∀ (cache2 : Option CacheEntry),
      fresh_fetch src fuel cache2 v n = (.exc e, st, k) → st = cache2 := by
    intro cache2 hf
    simp only [fresh_fetch] at hf
    split at hf
    · simp at hf
    · cases hf; rfl
    · simp at hf
  cases cache with
  | none =>
    simp only [get_cached_comments] at h
    exact hfresh none h
  | some c =>
    simp only [get_cached_comments] at h
    split at h
    · split at h
      · simp at h
      · split at h
        · simp at h
        · split at h
          · simp at h
          · cases h; rfl
          · simp at h
    · exact hfresh (some c) h

/-- A call whose loop runs out of fuel (models nontermination) leaves the
stored cache exactly as it was. -/
theorem get_spin_state {src : CommentSource} {fuel : Nat} {cache : Option CacheEntry}
    {v : String} {n : Nat} {st : Option CacheEntry} {k : Nat}
    (h : get_cached_comments src fuel cache v n = (.spin, st, k)) : st = cache := by
  have hfresh : ∀ (cache2 : Option CacheEntry),
      fresh_fetch src fuel cache2 v n = (.spin, st, k) → st = cache2 := by
    intro cache2 hf
    simp only [fresh_fetch] at hf
    split at hf
    · simp at hf
    · simp at hf
    · cases hf; rfl
  cases cache with
  | none =>
    simp only [get_cached_comments] at h
    exact hfresh none h
  | some c =>
    simp only [get_cached_comments] at h
    split at h
    · split at h
      · simp at h
      · split at h
        · simp at h
        · split at h
          · simp at h
          · simp at h
          · cases h; rfl
    · exact hfresh (some c) h

/-- `cacheInv` is preserved by every call (with a positive count, against
a well-formed source), whatever the outcome. -/
theorem get_preserves_inv {src : CommentSource} (hsrc : goodSource src)
    {fuel : Nat} {cache : Option CacheEntry} {v : String} {n : Nat}
    {res : GRes} {st : Option CacheEntry} {k : Nat}
    (hn : 0 < n) (hinv : cacheInv cache)
    (h : get_cached_comments src fuel cache v n = (res, st, k)) : cacheInv st := by
  cases res with
  | ok r =>
    rcases get_ok_spec hsrc hn hinv h with ⟨C, t, hst, -, -, hnil⟩
    rw [hst]
    intro hc
    exact (hnil hc).1
  | exc e => rw [get_exc_state h]; exact hinv
  | spin => rw [get_spin_state h]; exact hinv

/-! ## URL handling (src/utils.py `convert_youtube_url`,
src/media_processing.py `extract_video_id`)

The regexes used by the source are simple enough to embed directly:
ordered alternation of literal markers, each followed by exactly eleven
characters of the class `[a-zA-Z0-9_-]`, searched left to right
(`re.search` semantics: leftmost position wins, alternatives tried in
written order at each position). -/

/-- The character class `[a-zA-Z0-9_-]` of the video-id regexes. -/
def isIdChar (c : Char) : Bool :=
  c.isAlpha || c.isDigit || c == '_' || c == '-'

/-- Try one alternation branch at the current position: the literal marker
`p` followed by exactly eleven id characters; on success return the
captured eleven characters. -/
def matchMarker (p : List Char) (cs : List Char) : Option (List Char) :=
  if p.isPrefixOf cs then
    let idc := (cs.drop p.length).take 11
    if idc.length == 11 && idc.all isIdChar then some idc else none
  else none

/-- `re.search` over the whole string: at each position try the markers in
order, else advance one character. -/
def searchMarkers (markers : List (List Char)) : List Char → Option (List Char)
  | [] => none
  | c :: cs =>
    match markers.findSome? (fun p => matchMarker p (c :: cs)) with
    | some r => some r
    | none => searchMarkers markers cs

/-- `convert_youtube_url(url)` (src/utils.py lines 9-39): search for
`(?:v=|youtu\.be/|embed/)([a-zA-Z0-9_-]{11})` and build the embed URL, or
raise `ValueError("Invalid YouTube URL")`. -/
def convert_youtube_url (url : String) : Except PyExc String :=
  match searchMarkers ["v=".data, "youtu.be/".data, "embed/".data] url.data with
  | some idc => .ok ("https://www.youtube.com/embed/" ++ String.mk idc)
  | none => .error (.valueError "Invalid YouTube URL")

/-- The second pattern of `extract_video_id`:
`^([a-zA-Z0-9_-]{11})$` — a bare eleven-character id filling the whole
string (Python `$` also matches just before one trailing newline). -/
def bareVideoId (cs : List Char) : Option (List Char) :=
  if cs.length == 11 && cs.all isIdChar then some cs
  else if cs.length == 12 && cs.getLast? == some '\n' && (cs.take 11).all isIdChar then
    some (cs.take 11)
  else none

/-- `extract_video_id(url)` (src/media_processing.py lines 23-43): first
`(?:v=|/v/|youtu\.be/|/embed/)([a-zA-Z0-9_-]{11})`, then the bare-id
pattern, else raise `ValueError("Could not extract video ID from URL")`. -/
def extract_video_id (url : String) : Except PyExc String :=
  match searchMarkers ["v=".data, "/v/".data, "youtu.be/".data, "/embed/".data] url.data with
  | some idc => .ok (String.mk idc)
  | none =>
    match bareVideoId url.data with
    | some idc => .ok (String.mk idc)
    | none => .error (.valueError "Could not extract video ID from URL")

/-! ## Transcript handling (src/media_processing.py `find_captions` and
`retrieve_subtitles`)

The transcript API (`YouTubeTranscriptApi`) is an external collaborator:
listing the transcripts of a video either returns the available tracks or
raises one of `TranscriptsDisabled`, `NoTranscriptFound`,
`VideoUnavailable`, or a generic exception.  Fetching one track's data
likewise either yields the list of snippet texts or raises. -/

/-- One subtitle track as exposed by the transcript API, together with
the outcome `fetch()` would have on it. -/
structure Transcript where
  language_code : String
  language : String
  is_generated : Bool
  fetchResult : Except PyExc (List String)

/-- The external transcript API: `ytt_api.list(video_id)`. -/
def TranscriptSource : Type := String → Except PyExc (List Transcript)

/-- The display name built by both functions: the language name, with the
`" (auto-generated)"` suffix when the track is auto-generated. -/
def displayName (t : Transcript) : String :=
  if t.is_generated then t.language ++ " (auto-generated)" else t.language

/-- Python dict assignment `captions[lang_code] = lang_name`: overwrite in
place when the key exists, else append. -/
def dictAssign (d : List (String × String)) (k v : String) : List (String × String) :=
  if d.any (fun p => p.1 == k) then d.map (fun p => if p.1 == k then (k, v) else p)
  else d ++ [(k, v)]

/-- The caption dictionary built by `find_captions` (src/media_processing.py
lines 104-112). -/
def buildCaptions (ts : List Transcript) : List (String × String) :=
  ts.foldl (fun d t => dictAssign d t.language_code (displayName t)) []

/-- Python `str(e)` for the exceptions that can reach the generic
`except Exception as e:` handlers. -/
def excMessage : PyExc → String
  | .keyError k => k
  | .typeError m => m
  | .valueError m => m
  | .runtimeError m => m
  | .otherError m => m
  | _ => ""

/-- Substring test on character lists (for Python's `in` on strings). -/
def listContainsSub (needle : List Char) : List Char → Bool
  | [] => needle.isEmpty
  | c :: cs => needle.isPrefixOf (c :: cs) || listContainsSub needle cs

/-- `"certificate verify failed" in str(e).lower()` (ASCII lowering, as
in the messages the code compares against). -/
def hasCertFailure (msg : String) : Bool :=
  listContainsSub "certificate verify failed".data (msg.data.map Char.toLower)

/-- The message of the `RuntimeError` raised by `find_captions` on a
certificate-verification failure (src/media_processing.py line 124). -/
def certCaptionsMsg : String :=
  "SSL certificate verification failed while fetching captions. This is common on macOS. Please check your internet connection and try again."

/-- The message of the `RuntimeError` raised by `retrieve_subtitles` on a
certificate-verification failure (src/media_processing.py line 181). -/
def certSubtitlesMsg : String :=
  "SSL certificate verification failed while retrieving subtitles. This is common on macOS. Please check your internet connection and try again."

/-- The `try:` block of `find_captions` (src/media_processing.py
lines 97-114): extract the id, list the tracks, build the caption
dictionary; any step may raise. -/
def find_captions_body (src : TranscriptSource) (url : String) :
    Except PyExc (List (String × String)) :=
  match extract_video_id url with
  | .error e => .error e
  | .ok vid =>
    match src vid with
    | .error e => .error e
    | .ok ts => .ok (buildCaptions ts)

/-- `find_captions(url)` (src/media_processing.py lines 87-126): the three
expected transcript conditions yield an empty dictionary, every other
exception is re-raised as a `RuntimeError`. -/
def find_captions (src : TranscriptSource) (url : String) :
    Except PyExc (List (String × String)) :=
  match find_captions_body src url with
  | .ok d => .ok d
  | .error .transcriptsDisabled => .ok []
  | .error .noTranscriptFound => .ok []
  | .error .videoUnavailable => .ok []
  | .error e =>
    if hasCertFailure (excMessage e) then
      .error (.runtimeError certCaptionsMsg)
    else
      .error (.runtimeError ("Error fetching captions: " ++ excMessage e))

/-- `retrieve_subtitles(url, selected_caption_language)`
(src/media_processing.py lines 129-184): find the first track whose
display name equals the selected name, fetch it and join the snippet
texts with spaces; no match yields the empty string; the three expected
transcript conditions yield the empty string; of the remaining
exceptions only certificate-verification failures are re-raised — the
rest also yield the empty string. -/
def retrieve_subtitles_body (src : TranscriptSource) (url : String)
    (selected : String) : Except PyExc String :=
  match extract_video_id url with
  | .error e => .error e
  | .ok vid =>
    match src vid with
    | .error e => .error e
    | .ok ts =>
      match ts.find? (fun t => displayName t == selected) with
      | none => .ok ""
      | some t =>
        match t.fetchResult with
        | .error e => .error e
        | .ok data => .ok (String.intercalate " " data)

/-- The exception handlers of `retrieve_subtitles`
(src/media_processing.py lines 169-184). -/
def retrieve_subtitles (src : TranscriptSource) (url : String)
    (selected : String) : Except PyExc String :=
  match retrieve_subtitles_body src url selected with
  | .ok s => .ok s
  | .error .transcriptsDisabled => .ok ""
  | .error .noTranscriptFound => .ok ""
  | .error .videoUnavailable => .ok ""
  | .error e =>
    if hasCertFailure (excMessage e) then
      .error (.runtimeError certSubtitlesMsg)
    else
      .ok ""

/-! ## Concrete sources used to instantiate the claim theorems -/

/-- A minimal well-formed API item: the nested
`snippet.topLevelComment.snippet` path resolves (to a non-dict, so every
leaf falls back to its default). -/
def demoItem : JVal :=
  .dict [("snippet", .dict [("topLevelComment", .dict [("snippet", .str "x")])])]

/-- The comment `demoItem` is mapped to: all defaults. -/
def demoComment : Comment :=
  { id := none, text := .str "", author := none, published_at := none,
    like_count := .num 0 }

/-- A comment source for a video with no comments at all: one empty page
and no continuation token. -/
def emptyVideoSrc : CommentSource := fun _ => .ok ⟨[], none⟩

/-- A comment source for a video with exactly three comments on a single
exhausted page. -/
def threeSrc : CommentSource := fun _ => .ok ⟨[demoItem, demoItem, demoItem], none⟩

/-- A comment source for a video with exactly one comment on a single
exhausted page. -/
def oneSrc : CommentSource := fun _ => .ok ⟨[demoItem], none⟩

/-- A comment source whose every page request raises. -/
def failingSrc : CommentSource := fun _ => .error (.otherError "HttpError 403 quotaExceeded")

/-! ## Claims about the comment cache -/

/-- Claim C1: for every video_id `v` and positive `n`, if the cache entry
is for `v` and already holds at least `n` comments, `get_cached_comments`
returns the first `n` cached comments, performs no comment-source call,
and leaves the cache unchanged; consequently a second identical call on
the resulting state returns the identical result. -/
theorem claim_c1_cache_hit (src : CommentSource) (fuel : Nat) (v : String)
    (cs : List Comment) (tok : Option String) (n : Nat)
    (hn : 0 < n) (hlen : n ≤ cs.length) :
    get_cached_comments src fuel (some ⟨v, cs, tok⟩) v n
      = (GRes.ok (cs.take n), some ⟨v, cs, tok⟩, 0)
    ∧ get_cached_comments src fuel
        (get_cached_comments src fuel (some ⟨v, cs, tok⟩) v n).2.1 v n
      = get_cached_comments src fuel (some ⟨v, cs, tok⟩) v n := by
  have h1 : get_cached_comments src fuel (some ⟨v, cs, tok⟩) v n
      = (GRes.ok (cs.take n), some ⟨v, cs, tok⟩, 0) := by
    simp only [get_cached_comments]
    rw [if_pos trivial, if_pos hlen]
  refine ⟨h1, ?_⟩
  rw [h1]
  exact h1

/-- Witness for C1 at a concrete input: one cached comment, `n = 1`,
against a source that would fail if it were consulted — showing the call
is answered purely from the cache. -/
theorem claim_c1_cache_hit_witness :
    0 < 1 ∧ 1 ≤ [demoComment].length ∧
    get_cached_comments failingSrc 5 (some ⟨"X", [demoComment], none⟩) "X" 1
      = (GRes.ok [demoComment], some ⟨"X", [demoComment], none⟩, 0) :=
  ⟨Nat.one_pos, Nat.le_refl 1,
    (claim_c1_cache_hit failingSrc 5 "X" [demoComment] none 1 Nat.one_pos
      (Nat.le_refl 1)).1⟩

/-- Counterexample to claim C2: the absent-cursor-means-no-refetch rule
fails when zero comments are cached.  For a video with no comments, the
first call stores the entry `⟨"X", [], none⟩` — cursor absent because the
source signaled no further pages — yet the second call for the same video
performs one further comment-source call (its call count is `1`, not
`0`), because the guard at src/utils.py line 105 requires
`cached_count > 0`. -/
theorem claim_c2_counterexample :
    get_cached_comments emptyVideoSrc 5 none "X" 5
      = (GRes.ok [], some ⟨"X", [], none⟩, 1)
    ∧ get_cached_comments emptyVideoSrc 5 (some ⟨"X", [], none⟩) "X" 5
      = (GRes.ok [], some ⟨"X", [], none⟩, 1) :=
  ⟨rfl, rfl⟩

/-- Claim C2 as amended: (i) whenever a call stores an entry after making
at least one source call, the stored cursor is exactly the
`nextPageToken` of a source response — absent if and only if that
response signaled no further pages; (ii) once the cursor is absent for a
video and at least one comment is cached, a repeat call for that video
performs no comment-source call and leaves the entry unchanged.  (With
zero comments cached the code does issue a fresh fetch, as the
counterexample shows.) -/
theorem claim_c2_amended (src : CommentSource) (fuel : Nat)
    (cache : Option CacheEntry) (v : String) (n : Nat) :
    (∀ r st k, get_cached_comments src fuel cache v n = (GRes.ok r, st, k) → 1 ≤ k →
       ∃ e, st = some e ∧ ∃ t page, src t = .ok page
         ∧ e.next_page_token = page.nextPageToken)
  ∧ (∀ cs, cache = some ⟨v, cs, none⟩ → 0 < cs.length →
       ∃ r, get_cached_comments src fuel cache v n = (GRes.ok r, cache, 0)) := by
  have hfresh : ∀ (cache2 : Option CacheEntry) r st k,
      fresh_fetch src fuel cache2 v n = (.ok r, st, k) → 1 ≤ k →
      ∃ e, st = some e ∧ ∃ t page, src t = .ok page
        ∧ e.next_page_token = page.nextPageToken := by
    intro cache2 r st k h hk
    simp only [fresh_fetch] at h
    split at h
    · next cs tok k2 hloop =>
      simp only [Prod.mk.injEq] at h
      obtain ⟨hr, hst, hk2⟩ := h
      subst hst
      subst hk2
      rcases fetchLoop_tok_src fuel [] none 0 cs tok k2 hloop (by omega)
        with ⟨t, page, hsp, htokE⟩
      exact ⟨⟨v, cs, tok⟩, rfl, t, page, hsp, htokE⟩
    · simp at h
    · simp at h
  constructor
  · intro r st k h hk
    cases cache with
    | none =>
      simp only [get_cached_comments] at h
      exact hfresh none r st k h hk
    | some c =>
      obtain ⟨cv, ccs, ctok⟩ := c
      simp only [get_cached_comments] at h
      by_cases hv : cv = v
      · rw [if_pos hv] at h
        subst hv
        by_cases hfull : n ≤ ccs.length
        · rw [if_pos hfull] at h
          simp only [Prod.mk.injEq] at h
          omega
        · rw [if_neg hfull] at h
          by_cases hstop : ctok = none ∧ 0 < ccs.length
          · rw [if_pos hstop] at h
            simp only [Prod.mk.injEq] at h
            omega
          · rw [if_neg hstop] at h
            split at h
            · next new tok2 k2 hloop =>
              simp only [Prod.mk.injEq] at h
              obtain ⟨hr, hst, hk2⟩ := h
              subst hst
              subst hk2
              rcases fetchLoop_tok_src fuel [] ctok 0 new tok2 k2 hloop (by omega)
                with ⟨t, page, hsp, htokE⟩
              exact ⟨⟨cv, ccs ++ new, tok2⟩, rfl, t, page, hsp, htokE⟩
            · simp at h
            · simp at h
      · rw [if_neg hv] at h
        exact hfresh (some ⟨cv, ccs, ctok⟩) r st k h hk
  · intro cs hcache hpos
    subst hcache
    simp only [get_cached_comments]
    by_cases hfull : n ≤ cs.length
    · rw [if_pos trivial, if_pos hfull]
      exact ⟨cs.take n, rfl⟩
    · rw [if_pos trivial, if_neg hfull, if_pos ⟨trivial, hpos⟩]
      exact ⟨cs, rfl⟩

/-- Witness for the amended C2 at a concrete input: one comment cached,
cursor absent, request for more — answered from the cache with zero
source calls. -/
theorem claim_c2_amended_witness :
    ∃ r, get_cached_comments emptyVideoSrc 5 (some ⟨"X", [demoComment], none⟩) "X" 7
      = (GRes.ok r, some ⟨"X", [demoComment], none⟩, 0) :=
  (claim_c2_amended emptyVideoSrc 5 (some ⟨"X", [demoComment], none⟩) "X" 7).2
    [demoComment] rfl Nat.one_pos

/-- Claim C3: a comment-source failure during a fetch propagates to the
caller and leaves the stored cache entry exactly as it was — no
partially-accumulated page results are committed.  Conjunct (i): any call
ending in an exception leaves the cache unchanged.  Conjunct (ii): when
the additional-fetch path is taken and its pagination loop raises, the
call returns exactly that exception with the cache unchanged. -/
theorem claim_c3_error_no_commit (src : CommentSource) (fuel : Nat)
    (cache : Option CacheEntry) (v : String) (n : Nat) :
    (∀ e st k, get_cached_comments src fuel cache v n = (GRes.exc e, st, k) → st = cache)
  ∧ (∀ cv ccs ctok, cache = some ⟨cv, ccs, ctok⟩ → cv = v → ccs.length < n →
       ¬(ctok = none ∧ 0 < ccs.length) →
       ∀ e k, fetch_comments_with_token src fuel (n - ccs.length) ctok = (FRes.exc e, k) →
       get_cached_comments src fuel cache v n = (GRes.exc e, cache, k)) := by
  constructor
  · intro e st k h
    exact get_exc_state h
  · intro cv ccs ctok hcache hcv hlen hstop e k hloop
    subst hcache
    subst hcv
    simp only [get_cached_comments]
    rw [if_pos trivial, if_neg (by omega), if_neg hstop]
    simp only [fetch_comments_with_token] at hloop
    rw [hloop]

/-- Witness for C3 at a concrete input: one comment cached with a live
cursor, a source that raises on the next page — the call surfaces the
exception and the cache still holds exactly the pre-call entry. -/
theorem claim_c3_error_no_commit_witness :
    get_cached_comments failingSrc 5 (some ⟨"X", [demoComment], some "tokA"⟩) "X" 3
      = (GRes.exc (.otherError "HttpError 403 quotaExceeded"),
          some ⟨"X", [demoComment], some "tokA"⟩, 1) :=
  (claim_c3_error_no_commit failingSrc 5 (some ⟨"X", [demoComment], some "tokA"⟩)
      "X" 3).2 "X" [demoComment] (some "tokA") rfl rfl (by decide) (by simp)
    (.otherError "HttpError 403 quotaExceeded") 1 rfl

/-- Claim C5: for a video whose comment source is exhausted (cursor
absent) below the requested count, `get_cached_comments` returns exactly
the full exhausted sequence, in order, without raising.  Conjunct (i):
the cached-entry case (cursor absent, fewer than `n` cached).  Conjunct
(ii): the fresh-fetch case, when the pagination loop exhausts the source
(final token absent) with whatever it found. -/
theorem claim_c5_exhausted_result (src : CommentSource) (fuel : Nat) (v : String)
    (n : Nat) (cs : List Comment) :
    (0 < cs.length → cs.length < n →
       get_cached_comments src fuel (some ⟨v, cs, none⟩) v n
         = (GRes.ok cs, some ⟨v, cs, none⟩, 0))
  ∧ (∀ k, fetch_comments_with_token src fuel n none = (FRes.ok cs none, k) →
       get_cached_comments src fuel none v n
         = (GRes.ok cs, some ⟨v, cs, none⟩, k)) := by
  constructor
  · intro hpos hlt
    simp only [get_cached_comments]
    rw [if_pos trivial, if_neg (by omega), if_pos ⟨trivial, hpos⟩]
  · intro k hloop
    simp only [get_cached_comments, fresh_fetch]
    simp only [fetch_comments_with_token] at hloop
    rw [hloop]

/-- Witness for C5 at a concrete input: a video with exactly one comment,
requested count three — both the cached case and the fresh case return
the single exhausted comment without error. -/
theorem claim_c5_exhausted_result_witness :
    get_cached_comments oneSrc 5 (some ⟨"X", [demoComment], none⟩) "X" 3
      = (GRes.ok [demoComment], some ⟨"X", [demoComment], none⟩, 0)
    ∧ get_cached_comments oneSrc 5 none "X" 3
      = (GRes.ok [demoComment], some ⟨"X", [demoComment], none⟩, 1) :=
  ⟨(claim_c5_exhausted_result oneSrc 5 "X" 3 [demoComment]).1 Nat.one_pos
      (by decide),
   (claim_c5_exhausted_result oneSrc 5 "X" 3 [demoComment]).2 1 rfl⟩

/-- Claim C4: for every video and positive counts `n1 < n2`, calling
`get_cached_comments(v, n1)` and then `get_cached_comments(v, n2)` with
no intervening reset or change of video yields results where the first
`n1` items of the second equal the first call's result item for item.
Stated for a well-formed source (`goodSource`: the external API never
hands out an empty-string cursor), a session cache satisfying `cacheInv`
(as every state reachable from the empty session does, by
`get_preserves_inv`), and two successful calls. -/
theorem claim_c4_prefix_monotone {src : CommentSource} (hsrc : goodSource src)
    {fuel1 fuel2 : Nat} {cache : Option CacheEntry} {v : String} {n1 n2 : Nat}
    {r1 r2 : List Comment} {st1 st2 : Option CacheEntry} {k1 k2 : Nat}
    (hinv : cacheInv cache) (hn1 : 0 < n1) (h12 : n1 < n2)
    (hc1 : get_cached_comments src fuel1 cache v n1 = (GRes.ok r1, st1, k1))
    (hc2 : get_cached_comments src fuel2 st1 v n2 = (GRes.ok r2, st2, k2)) :
    r2.take n1 = r1 := by
  rcases get_ok_spec hsrc hn1 hinv hc1 with ⟨C, t, hst1, hr1, htokfull, hnil⟩
  subst hst1
  subst hr1
  simp only [get_cached_comments] at hc2
  rw [if_pos trivial] at hc2
  by_cases hfull : n2 ≤ C.length
  · rw [if_pos hfull] at hc2
    simp only [Prod.mk.injEq] at hc2
    obtain ⟨hr2, -, -⟩ := hc2
    injection hr2 with hr2
    subst hr2
    rw [List.take_take, Nat.min_eq_left (Nat.le_of_lt h12)]
  · rw [if_neg hfull] at hc2
    by_cases hstop : t = none ∧ 0 < C.length
    · rw [if_pos hstop] at hc2
      simp only [Prod.mk.injEq] at hc2
      obtain ⟨hr2, -, -⟩ := hc2
      injection hr2 with hr2
      subst hr2
      rfl
    · rw [if_neg hstop] at hc2
      split at hc2
      · next new tok2 k2' hloop =>
        simp only [Prod.mk.injEq] at hc2
        obtain ⟨hr2, -, -⟩ := hc2
        injection hr2 with hr2
        subst hr2
        rw [List.take_take, Nat.min_eq_left (Nat.le_of_lt h12)]
        by_cases ht : t = none
        · have hC : C = [] := by
            rcases Nat.eq_zero_or_pos C.length with h0 | hp
            · exact List.length_eq_zero.mp h0
            · exact absurd ⟨ht, hp⟩ hstop
          subst hC
          rcases hnil rfl with ⟨-, kz, hzloop⟩
          subst ht
          simp only [List.length_nil, Nat.sub_zero] at hloop
          have hnew : new = [] :=
            fetchLoop_nil_det hn1 (Nat.lt_of_lt_of_le hn1 (Nat.le_of_lt h12))
              fuel1 fuel2 none 0 0 none tok2 new kz k2' hzloop hloop
          subst hnew
          simp
        · have hlen1 : n1 ≤ C.length := htokfull ht
          rw [List.take_append_of_le_length hlen1]
      · simp at hc2
      · simp at hc2

/-- Witness for C4 at a concrete input: a video with three comments,
first call with `n1 = 1` (fresh fetch), second call with `n2 = 2`
(answered from cache, exhausted source) — the first item of the second
result is the first call's result. -/
theorem claim_c4_prefix_monotone_witness :
    get_cached_comments threeSrc 5 none "X" 1
      = (GRes.ok [demoComment], some ⟨"X", [demoComment], none⟩, 1)
    ∧ get_cached_comments threeSrc 5 (some ⟨"X", [demoComment], none⟩) "X" 2
      = (GRes.ok [demoComment], some ⟨"X", [demoComment], none⟩, 0)
    ∧ [demoComment].take 1 = [demoComment] := by
  have hc1 : get_cached_comments threeSrc 5 none "X" 1
      = (GRes.ok [demoComment], some ⟨"X", [demoComment], none⟩, 1) := rfl
  have hc2 : get_cached_comments threeSrc 5 (some ⟨"X", [demoComment], none⟩) "X" 2
      = (GRes.ok [demoComment], some ⟨"X", [demoComment], none⟩, 0) := rfl
  have hsrc : goodSource threeSrc := by
    intro t page h
    simp only [threeSrc] at h
    injection h with h
    subst h
    simp
  exact ⟨hc1, hc2,
    claim_c4_prefix_monotone hsrc (show cacheInv none from True.intro)
      Nat.one_pos Nat.one_lt_two hc1 hc2⟩

/-! ## Claims about the per-item mapping and the URL utilities -/

/-- An API item missing the nested `snippet` structure. -/
def malformedItem : JVal := .dict []

/-- A comment source whose single page contains one malformed item. -/
def badItemSrc : CommentSource := fun _ => .ok ⟨[malformedItem], none⟩

/-- Counterexample to claim C6: the per-item mapping is not total — an
item missing the `snippet` structure raises `KeyError("snippet")`
(src/utils.py line 194 subscripts `item["snippet"]` instead of using
`.get`), and that exception makes the whole batch fetch fail. -/
theorem claim_c6_counterexample :
    mapItem malformedItem = Except.error (PyExc.keyError "snippet")
    ∧ fetch_comments_with_token badItemSrc 3 1 none
        = (FRes.exc (PyExc.keyError "snippet"), 1) :=
  ⟨rfl, rfl⟩

/-- Claim C6 as amended: the per-item mapping is total for items whose
`snippet.topLevelComment.snippet` subscription chain resolves; for such
items (i) the mapping always succeeds, (ii) when the resolved snippet is
not a dict every leaf falls back to its empty/default value, and (iii) a
batch of such items never fails the accumulation loop.  An item whose
nested structure is missing, however, raises and fails the batch, as the
counterexample shows. -/
theorem claim_c6_amended :
    (∀ item sn tlc s, JVal.index item "snippet" = .ok sn →
       JVal.index sn "topLevelComment" = .ok tlc →
       JVal.index tlc "snippet" = .ok s →
       ∃ c, mapItem item = Except.ok c)
  ∧ (∀ item sn tlc s, JVal.index item "snippet" = .ok sn →
       JVal.index sn "topLevelComment" = .ok tlc →
       JVal.index tlc "snippet" = .ok s → s.isDict = false →
       mapItem item = Except.ok ⟨item.get "id", .str "", none, none, .num 0⟩)
  ∧ (∀ maxC acc items, (∀ it ∈ items, ∃ c, mapItem it = Except.ok c) →
       ∃ out, appendItems maxC acc items = Except.ok out) := by
  refine ⟨?_, ?_, ?_⟩
  · intro item sn tlc s h1 h2 h3
    simp only [mapItem, h1, h2, h3]
    exact ⟨_, rfl⟩
  · intro item sn tlc s h1 h2 h3 h4
    simp only [mapItem, h1, h2, h3, h4]
    simp
  · intro maxC acc items
    induction items generalizing acc with
    | nil => intro hall; exact ⟨acc, rfl⟩
    | cons it rest ih =>
      intro hall
      rcases hall it (List.mem_cons_self it rest) with ⟨c, hc⟩
      have hrest : ∀ x ∈ rest, ∃ c2, mapItem x = Except.ok c2 :=
        fun x hx => hall x (List.mem_cons_of_mem it hx)
      simp only [appendItems, hc]
      by_cases hlen : maxC ≤ (acc ++ [c]).length
      · exact ⟨acc ++ [c], by rw [if_pos hlen]⟩
      · rcases ih (acc ++ [c]) hrest with ⟨out, hout⟩
        exact ⟨out, by rw [if_neg hlen]; exact hout⟩

/-- Witness for the amended C6 at a concrete input: an item whose nested
path resolves to a non-dict is mapped to the all-defaults comment. -/
theorem claim_c6_amended_witness :
    mapItem demoItem = Except.ok demoComment :=
  claim_c6_amended.2.1 demoItem
    (.dict [("topLevelComment", .dict [("snippet", .str "x")])])
    (.dict [("snippet", .str "x")]) (.str "x") rfl rfl rfl rfl

/-- Counterexample to claim C7: the bare 11-character token is listed by
the claim as an accepted input form, but `convert_youtube_url`'s regex
requires one of the markers `v=`, `youtu.be/`, `embed/` before the id, so
the bare token raises `ValueError("Invalid YouTube URL")` instead of
returning the embed URL. -/
theorem claim_c7_counterexample :
    convert_youtube_url "dQw4w9WgXcQ"
      = Except.error (PyExc.valueError "Invalid YouTube URL") :=
  rfl

/-- Claim C7 as amended: the `watch?v=`, `youtu.be` short-link, and embed
forms containing video id `dQw4w9WgXcQ` all map to
`"https://www.youtube.com/embed/dQw4w9WgXcQ"`; the bare 11-character
token is not accepted by `convert_youtube_url` and raises. -/
theorem claim_c7_amended :
    convert_youtube_url "https://www.youtube.com/watch?v=dQw4w9WgXcQ"
      = Except.ok "https://www.youtube.com/embed/dQw4w9WgXcQ"
  ∧ convert_youtube_url "https://youtu.be/dQw4w9WgXcQ"
      = Except.ok "https://www.youtube.com/embed/dQw4w9WgXcQ"
  ∧ convert_youtube_url "https://www.youtube.com/embed/dQw4w9WgXcQ"
      = Except.ok "https://www.youtube.com/embed/dQw4w9WgXcQ"
  ∧ convert_youtube_url "dQw4w9WgXcQ"
      = Except.error (PyExc.valueError "Invalid YouTube URL") :=
  ⟨rfl, rfl, rfl, rfl⟩

/-- Claim C8: `extract_video_id` yields `"dQw4w9WgXcQ"` on the short-link
form, the `watch?v=` form, and the bare token, and fails with the
`InvalidReference` condition (`ValueError`) on `"not a url"`. -/
theorem claim_c8_extract_video_id :
    extract_video_id "https://youtu.be/dQw4w9WgXcQ" = Except.ok "dQw4w9WgXcQ"
  ∧ extract_video_id "https://www.youtube.com/watch?v=dQw4w9WgXcQ"
      = Except.ok "dQw4w9WgXcQ"
  ∧ extract_video_id "dQw4w9WgXcQ" = Except.ok "dQw4w9WgXcQ"
  ∧ extract_video_id "not a url"
      = Except.error (PyExc.valueError "Could not extract video ID from URL") :=
  ⟨rfl, rfl, rfl, rfl⟩

/-! ## Claims about the transcript functions -/

/-- A transcript source that raises a generic (non-certificate) transport
error, e.g. a network timeout. -/
def timeoutTranscriptSrc : TranscriptSource :=
  fun _ => .error (.otherError "connection timed out")

/-- A transcript source reporting subtitles disabled. -/
def disabledTranscriptSrc : TranscriptSource :=
  fun _ => .error .transcriptsDisabled

/-- One English track whose fetch succeeds. -/
def demoTrack : Transcript := ⟨"en", "English", false, .ok ["hello", "world"]⟩

/-- A transcript source exposing exactly the one English track. -/
def oneTrackSrc : TranscriptSource := fun _ => .ok [demoTrack]

/-- Counterexample to claim C9: a transport-level network failure (a
generic error whose message does not mention certificate verification)
during `retrieve_subtitles` is not surfaced as a raised error — the
generic handler's else-branch (src/media_processing.py lines 182-184)
returns the empty string, indistinguishable from the expected non-fatal
conditions.  (`find_captions`, by contrast, re-raises it.) -/
theorem claim_c9_counterexample :
    retrieve_subtitles timeoutTranscriptSrc "dQw4w9WgXcQ" "English" = Except.ok ""
    ∧ find_captions timeoutTranscriptSrc "dQw4w9WgXcQ"
        = Except.error (PyExc.runtimeError "Error fetching captions: connection timed out") :=
  ⟨rfl, rfl⟩

/-- Claim C9 as amended: the three expected transcript conditions
(disabled, not found, unavailable) yield an empty track set from
`find_captions` and empty text from `retrieve_subtitles` without raising;
certificate-verification failures are surfaced as raised `RuntimeError`s
by both; any other unexpected failure is re-raised by `find_captions` but
swallowed into empty text by `retrieve_subtitles` (as the counterexample
shows), so only `find_captions` surfaces generic transport failures
distinctly. -/
theorem claim_c9_amended (src : TranscriptSource) (url vid sel : String)
    (hv : extract_video_id url = Except.ok vid) :
    (src vid = .error .transcriptsDisabled →
       find_captions src url = .ok [] ∧ retrieve_subtitles src url sel = .ok "")
  ∧ (src vid = .error .noTranscriptFound →
       find_captions src url = .ok [] ∧ retrieve_subtitles src url sel = .ok "")
  ∧ (src vid = .error .videoUnavailable →
       find_captions src url = .ok [] ∧ retrieve_subtitles src url sel = .ok "")
  ∧ (∀ m, src vid = .error (.otherError m) → hasCertFailure m = true →
       find_captions src url = .error (.runtimeError certCaptionsMsg)
       ∧ retrieve_subtitles src url sel = .error (.runtimeError certSubtitlesMsg))
  ∧ (∀ m, src vid = .error (.otherError m) →
       ∃ s1, find_captions src url = .error (.runtimeError s1))
  ∧ (∀ m, src vid = .error (.otherError m) → hasCertFailure m = false →
       retrieve_subtitles src url sel = .ok "") := by
  have hcap : ∀ e, src vid = .error e →
      find_captions_body src url = .error e := by
    intro e he
    simp only [find_captions_body, hv, he]
  have hsub : ∀ e, src vid = .error e →
      retrieve_subtitles_body src url sel = .error e := by
    intro e he
    simp only [retrieve_subtitles_body, hv, he]
  refine ⟨?_, ?_, ?_, ?_, ?_, ?_⟩
  · intro he
    constructor
    · simp only [find_captions, hcap _ he]
    · simp only [retrieve_subtitles, hsub _ he]
  · intro he
    constructor
    · simp only [find_captions, hcap _ he]
    · simp only [retrieve_subtitles, hsub _ he]
  · intro he
    constructor
    · simp only [find_captions, hcap _ he]
    · simp only [retrieve_subtitles, hsub _ he]
  · intro m he hcert
    constructor
    · simp [find_captions, hcap _ he, excMessage, hcert]
    · simp [retrieve_subtitles, hsub _ he, excMessage, hcert]
  · intro m he
    by_cases hcert : hasCertFailure m = true
    · exact ⟨certCaptionsMsg, by simp [find_captions, hcap _ he, excMessage, hcert]⟩
    · exact ⟨"Error fetching captions: " ++ m,
        by simp [find_captions, hcap _ he, excMessage, hcert]⟩
  · intro m he hcert
    simp [retrieve_subtitles, hsub _ he, excMessage, hcert]

/-- Witness for the amended C9 at a concrete input: subtitles disabled —
both functions return empty results without raising. -/
theorem claim_c9_amended_witness :
    find_captions disabledTranscriptSrc "dQw4w9WgXcQ" = Except.ok []
    ∧ retrieve_subtitles disabledTranscriptSrc "dQw4w9WgXcQ" "English" = Except.ok "" :=
  (claim_c9_amended disabledTranscriptSrc "dQw4w9WgXcQ" "dQw4w9WgXcQ" "English" rfl).1 rfl

/-- Claim C10 (implicit): when the available track list contains no track
with the selected display name, `retrieve_subtitles` returns the empty
string rather than raising — the same return value as when subtitles are
disabled, not found, or the video is unavailable, so a caller cannot
distinguish the two situations from the return value alone. -/
theorem claim_c10_no_matching_track (src : TranscriptSource) (url vid sel : String)
    (ts : List Transcript)
    (hv : extract_video_id url = Except.ok vid)
    (hs : src vid = Except.ok ts)
    (hnone : ∀ t ∈ ts, displayName t ≠ sel) :
    retrieve_subtitles src url sel = Except.ok ""
    ∧ retrieve_subtitles src url sel
        = retrieve_subtitles disabledTranscriptSrc url sel := by
  have hfind : ts.find? (fun t => displayName t == sel) = none := by
    rw [List.find?_eq_none]
    intro x hx
    simpa using hnone x hx
  have hbody : retrieve_subtitles_body src url sel = Except.ok "" := by
    simp only [retrieve_subtitles_body, hv, hs, hfind]
  have h1 : retrieve_subtitles src url sel = Except.ok "" := by
    simp only [retrieve_subtitles, hbody]
  have hbody2 : retrieve_subtitles_body disabledTranscriptSrc url sel
      = Except.error .transcriptsDisabled := by
    simp only [retrieve_subtitles_body, hv, disabledTranscriptSrc]
  have h2 : retrieve_subtitles disabledTranscriptSrc url sel = Except.ok "" := by
    simp only [retrieve_subtitles, hbody2]
  exact ⟨h1, h1.trans h2.symm⟩

/-- Witness for C10 at a concrete input: the only available track is
English, French is selected — the result is the empty string, equal to
the disabled-subtitles result. -/
theorem claim_c10_no_matching_track_witness :
    retrieve_subtitles oneTrackSrc "dQw4w9WgXcQ" "French" = Except.ok "" :=
  (claim_c10_no_matching_track oneTrackSrc "dQw4w9WgXcQ" "dQw4w9WgXcQ" "French"
    [demoTrack] rfl rfl (by intro t ht; simp at ht; subst ht; decide)).1

end VideoSummaryTool
